import Mathlib

/-!
Verification of the intern3-docs repository.

This file gives a shallow embedding of the two source files:

* `sparse-clone.ts` — the docs sync script.  Its body is a linear sequence of
  external command invocations and file-system operations inside a
  `try { … } catch (error) { console.error(…); process.exit(1) } finally { rmSync(tempDir) }`
  block, followed by a `require.main` runner with a `.then`/`.catch` pair.
  The embedding models each external call as an environment flag saying whether
  it succeeds, threads an explicit file-system world through the steps, and
  reproduces the control flow of `try`/`catch`/`finally` exactly — including the
  fact that `process.exit(1)` inside the `catch` block terminates the Node
  process immediately, so the `finally` block does NOT run on the error path.

* `src/app/layout.config.tsx` — the static navigation configuration object.
-/

namespace Intern3Docs

/-- A directory tree, abstracted as a list of (relative path, file contents) pairs. -/
abbrev Tree := List (String × String)

/-- The steps of `sparseCloneDocs`, in source order: derive the temp path
(line 11), remove an existing target (lines 17–20), `git clone` (line 28),
`git config core.sparseCheckout true` (line 36), `git sparse-checkout init --cone`
(line 42), `git sparse-checkout set docs` (line 48), `git checkout` (line 55),
the diagnostic `find` in the temp clone (lines 62–78), `mkdirSync` + `cpSync`
(lines 82–91, including the missing-docs check), and the diagnostic `find` on
the target (lines 95–103). -/
inductive Step where
  | derivePath
  | clearTarget
  | clone
  | configSparse
  | sparseInit
  | sparseSet
  | checkout
  | enumTemp
  | copy
  | enumTarget
  deriving DecidableEq, Repr

/-- Errors the script can raise: a thrown `execSync`/fs call, the explicit
`throw new Error("Docs folder not found …")`, or a throw from the `finally`
block's `rmSync`. -/
inductive Err where
  | cmdFailed (s : Step)
  | missingDocs
  | cleanupFailed
  deriving DecidableEq, Repr

/-- Console output, one constructor per distinct `console.log`/`console.error`
message of the script. -/
inductive LogMsg where
  | starting
  | removingExisting
  | creatingClone
  | checkingOutDocs
  | verifying
  | filesCheckedOut
  | couldNotList
  | copying
  | copied
  | finalResult
  | filesListed
  | couldNotListTarget
  | cleaning
  | errorDuring (e : Err)
  | completedSuccess
  | scriptFailed (e : Err)
  deriving DecidableEq, Repr

/-- The environment of one invocation: the clock value read by `Date.now()`,
the prior contents of the target directory, the `docs/` subtree of the remote
repository's default branch (if any), and one flag per external command or bulk
file-system operation saying whether it succeeds or throws. -/
structure Env where
  now : Nat
  targetPrior : Option Tree
  rmTargetOk : Bool
  cloneOk : Bool
  failedCloneLeavesTemp : Bool
  configOk : Bool
  sparseInitOk : Bool
  sparseSetOk : Bool
  checkoutOk : Bool
  enumTempOk : Bool
  remoteDocs : Option Tree
  copyOk : Bool
  enumTargetOk : Bool
  cleanupOk : Bool
  deriving DecidableEq, Repr

/-- The mutable file-system/console state threaded through the run: the current
contents of `./content/docs`, whether the temporary directory currently exists,
and the console output so far. -/
structure World where
  target : Option Tree
  tempExists : Bool
  log : List LogMsg
  deriving DecidableEq, Repr

/-- Result of one step: either control continues to the next statement
(`failed` records a throw that the step swallowed in its own `try`/`catch`),
or the step threw out of the surrounding `try` block. -/
inductive StepRes where
  | cont (w : World) (failed : Bool)
  | halt (w : World) (e : Err)
  deriving DecidableEq, Repr

/-- One step of `sparseCloneDocs`, translated line by line from the source.
The two enumeration steps have their own inner `try`/`catch` that only logs,
so they always continue; the copy step throws the distinguished
missing-docs error when the `docs` subdirectory is absent from the clone;
a failed `git clone` may or may not leave the directory it created behind
(external behavior, kept as a flag). -/
def execStep (env : Env) : Step → World → StepRes
  | .derivePath, w => .cont w false
  | .clearTarget, w =>
    match w.target with
    | some _ =>
      if env.rmTargetOk then
        .cont { w with target := none, log := w.log ++ [.removingExisting] } false
      else
        .halt { w with log := w.log ++ [.removingExisting] } (.cmdFailed .clearTarget)
    | none => .cont w false
  | .clone, w =>
    if env.cloneOk then
      .cont { w with tempExists := true, log := w.log ++ [.creatingClone] } false
    else
      .halt { w with tempExists := env.failedCloneLeavesTemp,
                     log := w.log ++ [.creatingClone] } (.cmdFailed .clone)
  | .configSparse, w =>
    if env.configOk then .cont w false else .halt w (.cmdFailed .configSparse)
  | .sparseInit, w =>
    if env.sparseInitOk then .cont w false else .halt w (.cmdFailed .sparseInit)
  | .sparseSet, w =>
    if env.sparseSetOk then .cont w false else .halt w (.cmdFailed .sparseSet)
  | .checkout, w =>
    if env.checkoutOk then
      .cont { w with log := w.log ++ [.checkingOutDocs] } false
    else
      .halt { w with log := w.log ++ [.checkingOutDocs] } (.cmdFailed .checkout)
  | .enumTemp, w =>
    if env.enumTempOk then
      .cont { w with log := w.log ++ [.verifying, .filesCheckedOut] } false
    else
      .cont { w with log := w.log ++ [.verifying, .couldNotList] } true
  | .copy, w =>
    match env.remoteDocs with
    | some d =>
      if env.copyOk then
        .cont { w with target := some d, log := w.log ++ [.copying, .copied] } false
      else
        .halt { w with log := w.log ++ [.copying] } (.cmdFailed .copy)
    | none => .halt w .missingDocs
  | .enumTarget, w =>
    if env.enumTargetOk then
      .cont { w with log := w.log ++ [.finalResult, .filesListed] } false
    else
      .cont { w with log := w.log ++ [.finalResult, .couldNotListTarget] } true

/-- Outcome of the whole `try` block: the final world, the steps that began
executing, the steps in which some operation threw (including swallowed
diagnostic throws), and the error that escaped the `try` block, if any,
paired with the step it came from. -/
structure RunOut where
  world : World
  trace : List Step
  failures : List Step
  thrown : Option (Step × Err)
  deriving DecidableEq, Repr

/-- Run a list of steps in order; a step whose error escapes aborts all
subsequent steps (exception propagation out of the `try` block). -/
def runSteps (env : Env) : List Step → World → RunOut
  | [], w => ⟨w, [], [], none⟩
  | s :: rest, w =>
    match execStep env s w with
    | .cont w2 failed =>
      let r := runSteps env rest w2
      ⟨r.world, s :: r.trace, (if failed then [s] else []) ++ r.failures, r.thrown⟩
    | .halt w2 e => ⟨w2, [s], [s], some (s, e)⟩

/-- The statements of the `try` block of `sparseCloneDocs`, in source order. -/
def stepOrder : List Step :=
  [.derivePath, .clearTarget, .clone, .configSparse, .sparseInit, .sparseSet,
   .checkout, .enumTemp, .copy, .enumTarget]

/-- How the promise returned by `sparseCloneDocs()` ends: `exited` means
`process.exit` was called and the promise never settles; otherwise the promise
resolves or rejects. -/
inductive Outcome where
  | exited (code : Nat)
  | resolved
  | rejected (e : Err)
  deriving DecidableEq, Repr

/-- The observable result of one invocation of `sparseCloneDocs`. -/
structure RunResult where
  outcome : Outcome
  target : Option Tree
  tempExists : Bool
  log : List LogMsg
  trace : List Step
  failures : List Step
  thrown : Option (Step × Err)
  deriving DecidableEq, Repr

/-- The `catch`/`finally` part of `sparseCloneDocs` (lines 109–118).

If the `try` block threw, the `catch` block logs the error and calls
`process.exit(1)`.  In Node, `process.exit` terminates the process
immediately: the `finally` block does NOT run on this path, so the temporary
directory is left in whatever state the failing step left it.

If the `try` block completed, the `finally` block runs: it checks
`existsSync(tempDir)` and calls `rmSync`.  That `rmSync` is not inside any
`try`/`catch`, so if it throws, the promise returned by the function rejects. -/
def finishRun (env : Env) (r : RunOut) : RunResult :=
  match r.thrown with
  | some (s, e) =>
    { outcome := .exited 1
      target := r.world.target
      tempExists := r.world.tempExists
      log := r.world.log ++ [.errorDuring e]
      trace := r.trace
      failures := r.failures
      thrown := some (s, e) }
  | none =>
    if r.world.tempExists then
      if env.cleanupOk then
        { outcome := .resolved
          target := r.world.target
          tempExists := false
          log := r.world.log ++ [.cleaning]
          trace := r.trace
          failures := r.failures
          thrown := none }
      else
        { outcome := .rejected .cleanupFailed
          target := r.world.target
          tempExists := true
          log := r.world.log ++ [.cleaning]
          trace := r.trace
          failures := r.failures
          thrown := none }
    else
      { outcome := .resolved
        target := r.world.target
        tempExists := false
        log := r.world.log
        trace := r.trace
        failures := r.failures
        thrown := none }

/-- The world at the start of a run: the target holds its prior contents, the
temporary directory does not exist yet, and the start banner has been logged. -/
def initialWorld (env : Env) : World :=
  { target := env.targetPrior, tempExists := false, log := [.starting] }

/-- The whole of `sparseCloneDocs` (lines 9–119). -/
def sparseCloneDocs (env : Env) : RunResult :=
  finishRun env (runSteps env stepOrder (initialWorld env))

/-- The `require.main === module` runner (lines 122–131): awaits the promise,
logs a success banner and lets the process exit 0 on resolution, or logs the
error and calls `process.exit(1)` on rejection.  When `sparseCloneDocs`
already called `process.exit`, neither handler runs.  Returns the final
process exit status and the complete console output. -/
def mainEntry (env : Env) : Nat × List LogMsg :=
  let r := sparseCloneDocs env
  match r.outcome with
  | .exited c => (c, r.log)
  | .resolved => (0, r.log ++ [.completedSuccess])
  | .rejected e => (1, r.log ++ [.scriptFailed e])

/-- Line 11: `join(tmpdir(), ` followed by the template literal
`intern3-docs-clone-${Date.now()}` `)`.  The path is a pure function of the
system temporary directory and the millisecond clock value; no file-system
existence check is involved. -/
def tempDirOf (tmp : String) (now : Nat) : String :=
  tmp ++ "/" ++ "intern3-docs-clone-" ++ Nat.repr now

/-- Is a console message one of the two failure diagnostics
(`❌ Error during sparse clone:` or `💥 Script failed:`)? -/
def isDiagMsg : LogMsg → Bool
  | .errorDuring _ => true
  | .scriptFailed _ => true
  | _ => false

/-! ### The navigation configuration (`src/app/layout.config.tsx`) -/

/-- One entry of the `links` array of `BaseLayoutProps`. -/
structure LinkItem where
  text : String
  url : String
  deriving DecidableEq, Repr

/-- The `nav.title` value: a fragment combining the `Logo` icon (with its
`className`) and a text label. -/
inductive NavTitle where
  | iconText (iconClassName : String) (text : String)
  deriving DecidableEq, Repr

/-- The `nav` slot of `BaseLayoutProps`. -/
structure Nav where
  title : NavTitle
  deriving DecidableEq, Repr

/-- The shape of `BaseLayoutProps` as used by `layout.config.tsx`. -/
structure BaseLayoutProps where
  nav : Nav
  links : List LinkItem
  deriving DecidableEq, Repr

/-- The exported `baseOptions` constant. -/
def baseOptions : BaseLayoutProps :=
  { nav := { title := .iconText "w-6 h-6" "intern3.chat" }
    links := [] }

/-! ### Generic lemmas about the step driver -/

theorem runSteps_trace_isPrefix (env : Env) :
    ∀ (l : List Step) (w : World), (runSteps env l w).trace <+: l := by
  intro l
  induction l with
  | nil => intro w; simp [runSteps]
  | cons s rest ih =>
    intro w
    cases hs : execStep env s w with
    | cont w2 failed =>
      obtain ⟨t, ht⟩ := ih w2
      refine ⟨t, ?_⟩
      simp [runSteps, hs, ht]
    | halt w2 e =>
      exact ⟨rest, by simp [runSteps, hs]⟩

theorem runSteps_none_trace (env : Env) :
    ∀ (l : List Step) (w : World), (runSteps env l w).thrown = none →
      (runSteps env l w).trace = l := by
  intro l
  induction l with
  | nil => intro w _; simp [runSteps]
  | cons s rest ih =>
    intro w h
    cases hs : execStep env s w with
    | cont w2 failed =>
      simp only [runSteps, hs] at h ⊢
      rw [ih w2 h]
    | halt w2 e =>
      simp [runSteps, hs] at h

theorem runSteps_halt_getLast (env : Env) :
    ∀ (l : List Step) (w : World) (s : Step) (e : Err),
      (runSteps env l w).thrown = some (s, e) →
      (runSteps env l w).trace.getLast? = some s := by
  intro l
  induction l with
  | nil => intro w s e h; simp [runSteps] at h
  | cons a rest ih =>
    intro w s e h
    cases hs : execStep env a w with
    | cont w2 failed =>
      simp only [runSteps, hs] at h ⊢
      have h2 := ih w2 s e h
      cases htr : (runSteps env rest w2).trace with
      | nil => rw [htr] at h2; simp at h2
      | cons b tl =>
        rw [htr] at h2
        simpa using h2
    | halt w2 e2 =>
      simp only [runSteps, hs] at h ⊢
      simp at h
      simp [h.1]

theorem finishRun_trace (env : Env) (r : RunOut) :
    (finishRun env r).trace = r.trace := by
  rcases r with ⟨w, tr, fl, th⟩
  rcases th with _ | ⟨s, e⟩
  · simp only [finishRun]
    split
    · split <;> rfl
    · rfl
  · rfl

theorem finishRun_thrown (env : Env) (r : RunOut) :
    (finishRun env r).thrown = r.thrown := by
  rcases r with ⟨w, tr, fl, th⟩
  rcases th with _ | ⟨s, e⟩
  · simp only [finishRun]
    split
    · split <;> rfl
    · rfl
  · rfl

theorem finishRun_target (env : Env) (r : RunOut) :
    (finishRun env r).target = r.world.target := by
  rcases r with ⟨w, tr, fl, th⟩
  rcases th with _ | ⟨s, e⟩
  · simp only [finishRun]
    split
    · split <;> rfl
    · rfl
  · rfl

theorem finishRun_failures (env : Env) (r : RunOut) :
    (finishRun env r).failures = r.failures := by
  rcases r with ⟨w, tr, fl, th⟩
  rcases th with _ | ⟨s, e⟩
  · simp only [finishRun]
    split
    · split <;> rfl
    · rfl
  · rfl

theorem finishRun_exited_of_thrown (env : Env) (r : RunOut) (s : Step) (e : Err)
    (h : r.thrown = some (s, e)) : (finishRun env r).outcome = .exited 1 := by
  rcases r with ⟨w, tr, fl, th⟩
  rcases th with _ | p
  · exact absurd h (by simp)
  · rfl

theorem finishRun_rejected (env : Env) (r : RunOut) (e : Err)
    (h : (finishRun env r).outcome = .rejected e) :
    e = .cleanupFailed ∧ r.thrown = none := by
  rcases r with ⟨w, tr, fl, th⟩
  rcases th with _ | p
  · refine ⟨?_, rfl⟩
    simp only [finishRun] at h
    split at h
    · split at h
      · simp at h
      · simp at h
        exact h.symm
    · simp at h
  · simp [finishRun] at h

theorem finishRun_diag (env : Env) (r : RunOut) :
    (finishRun env r).outcome = .resolved ∨
    ((finishRun env r).outcome = .exited 1 ∧
      (finishRun env r).log.any isDiagMsg = true) ∨
    (finishRun env r).outcome = .rejected .cleanupFailed := by
  rcases r with ⟨w, tr, fl, th⟩
  rcases th with _ | ⟨s, e⟩
  · simp only [finishRun]
    split
    · split
      · exact Or.inl rfl
      · exact Or.inr (Or.inr rfl)
    · exact Or.inl rfl
  · refine Or.inr (Or.inl ⟨rfl, ?_⟩)
    simp [finishRun, isDiagMsg]

/-! ### The run outcome does not depend on the diagnostic enumeration flags -/

/-- The part of the world the operation's contract depends on: everything but
the console output. -/
def World.core (w : World) : Option Tree × Bool := (w.target, w.tempExists)

/-- Two step results that agree up to console output and the swallowed-throw
marker. -/
def StepRes.Agrees : StepRes → StepRes → Prop
  | .cont u1 _, .cont u2 _ => u1.core = u2.core
  | .halt u1 a, .halt u2 b => u1.core = u2.core ∧ a = b
  | _, _ => False

theorem execStep_agrees (env : Env) (b b2 : Bool) (s : Step) (w1 w2 : World)
    (hw : w1.core = w2.core) :
    (execStep env s w1).Agrees
      (execStep { env with enumTempOk := b, enumTargetOk := b2 } s w2) := by
  have htgt : w1.target = w2.target := congrArg Prod.fst hw
  have htmp : w1.tempExists = w2.tempExists := congrArg Prod.snd hw
  cases s
  case derivePath => simpa [execStep, StepRes.Agrees] using hw
  case clearTarget =>
    simp only [execStep, htgt]
    cases h2 : w2.target with
    | none => simpa [StepRes.Agrees] using hw
    | some t =>
      by_cases hrm : env.rmTargetOk <;>
        simp [hrm, StepRes.Agrees, World.core, htmp]
  case clone =>
    by_cases hc : env.cloneOk <;>
      simp [execStep, hc, StepRes.Agrees, World.core, htgt, htmp]
  case configSparse =>
    by_cases hc : env.configOk <;>
      simp [execStep, hc, StepRes.Agrees, World.core, htgt, htmp]
  case sparseInit =>
    by_cases hc : env.sparseInitOk <;>
      simp [execStep, hc, StepRes.Agrees, World.core, htgt, htmp]
  case sparseSet =>
    by_cases hc : env.sparseSetOk <;>
      simp [execStep, hc, StepRes.Agrees, World.core, htgt, htmp]
  case checkout =>
    by_cases hc : env.checkoutOk <;>
      simp [execStep, hc, StepRes.Agrees, World.core, htgt, htmp]
  case enumTemp =>
    by_cases hc : env.enumTempOk <;> cases b <;>
      simp [execStep, hc, StepRes.Agrees, World.core, htgt, htmp]
  case copy =>
    cases hd : env.remoteDocs with
    | none => simp [execStep, hd, StepRes.Agrees, World.core, htgt, htmp]
    | some d =>
      by_cases hc : env.copyOk <;>
        simp [execStep, hd, hc, StepRes.Agrees, World.core, htgt, htmp]
  case enumTarget =>
    by_cases hc : env.enumTargetOk <;> cases b2 <;>
      simp [execStep, hc, StepRes.Agrees, World.core, htgt, htmp]

theorem runSteps_agrees (env : Env) (b b2 : Bool) :
    ∀ (l : List Step) (w1 w2 : World), w1.core = w2.core →
      (runSteps env l w1).world.core
          = (runSteps { env with enumTempOk := b, enumTargetOk := b2 } l w2).world.core ∧
      (runSteps env l w1).trace
          = (runSteps { env with enumTempOk := b, enumTargetOk := b2 } l w2).trace ∧
      (runSteps env l w1).thrown
          = (runSteps { env with enumTempOk := b, enumTargetOk := b2 } l w2).thrown := by
  intro l
  induction l with
  | nil => intro w1 w2 hw; simpa [runSteps] using hw
  | cons s rest ih =>
    intro w1 w2 hw
    have hag := execStep_agrees env b b2 s w1 w2 hw
    cases h1 : execStep env s w1 with
    | cont u1 f1 =>
      cases h2 : execStep { env with enumTempOk := b, enumTargetOk := b2 } s w2 with
      | cont u2 f2 =>
        rw [h1, h2] at hag
        simp only [StepRes.Agrees] at hag
        obtain ⟨hcw, hct, hcth⟩ := ih u1 u2 hag
        simp [runSteps, h1, h2, hcw, hct, hcth]
      | halt u2 e2 =>
        rw [h1, h2] at hag
        simp [StepRes.Agrees] at hag
    | halt u1 e1 =>
      cases h2 : execStep { env with enumTempOk := b, enumTargetOk := b2 } s w2 with
      | cont u2 f2 =>
        rw [h1, h2] at hag
        simp [StepRes.Agrees] at hag
      | halt u2 e2 =>
        rw [h1, h2] at hag
        simp only [StepRes.Agrees] at hag
        simp [runSteps, h1, h2, hag.1, hag.2]

theorem finishRun_congr (env1 env2 : Env) (r1 r2 : RunOut)
    (hc : env1.cleanupOk = env2.cleanupOk)
    (hw : r1.world.core = r2.world.core)
    (hth : r1.thrown = r2.thrown) (htr : r1.trace = r2.trace) :
    (finishRun env1 r1).outcome = (finishRun env2 r2).outcome ∧
    (finishRun env1 r1).target = (finishRun env2 r2).target ∧
    (finishRun env1 r1).tempExists = (finishRun env2 r2).tempExists ∧
    (finishRun env1 r1).trace = (finishRun env2 r2).trace := by
  have htgt : r1.world.target = r2.world.target := congrArg Prod.fst hw
  have htmp : r1.world.tempExists = r2.world.tempExists := congrArg Prod.snd hw
  rcases r1 with ⟨w1, tr1, fl1, th1⟩
  rcases r2 with ⟨w2, tr2, fl2, th2⟩
  simp only at htgt htmp hth htr
  subst hth htr
  rcases th1 with _ | ⟨s, e⟩
  · simp only [finishRun, htgt, htmp, hc]
    split
    · split <;> simp
    · simp
  · simp [finishRun, htgt, htmp]

/-! ### Injectivity of the decimal timestamp rendering in the temp path -/

theorem digitChar_inj_lt :
    ∀ a < 10, ∀ b < 10, Nat.digitChar a = Nat.digitChar b → a = b := by decide

theorem map_digitChar_inj :
    ∀ (l1 l2 : List Nat), (∀ d ∈ l1, d < 10) → (∀ d ∈ l2, d < 10) →
      l1.map Nat.digitChar = l2.map Nat.digitChar → l1 = l2 := by
  intro l1
  induction l1 with
  | nil =>
    intro l2 _ _ h
    cases l2 with
    | nil => rfl
    | cons b t2 => simp at h
  | cons a t ih =>
    intro l2 h1 h2 h
    cases l2 with
    | nil => simp at h
    | cons b t2 =>
      simp only [List.map_cons, List.cons.injEq] at h
      have ha : a < 10 := h1 a (by simp)
      have hb : b < 10 := h2 b (by simp)
      have hab : a = b := digitChar_inj_lt a ha b hb h.1
      have ht : t = t2 :=
        ih t2 (fun d hd => h1 d (by simp [hd])) (fun d hd => h2 d (by simp [hd])) h.2
      rw [hab, ht]

theorem toDigitsCore_digits (f : Nat) :
    ∀ (n : Nat) (ds : List Char), 0 < n → n ≤ f →
      Nat.toDigitsCore 10 f n ds
        = ((Nat.digits 10 n).map Nat.digitChar).reverse ++ ds := by
  induction f with
  | zero => intro n ds hn hf; omega
  | succ f ih =>
    intro n ds hn hf
    have hd := Nat.digits_def' (b := 10) (by norm_num) hn
    simp only [Nat.toDigitsCore]
    by_cases h0 : n / 10 = 0
    · rw [if_pos h0, hd, h0]
      simp
    · rw [if_neg h0]
      have hpos : 0 < n / 10 := Nat.pos_of_ne_zero h0
      have hle : n / 10 ≤ f := by
        have : n / 10 < n := Nat.div_lt_self hn (by norm_num)
        omega
      rw [ih (n / 10) (Nat.digitChar (n % 10) :: ds) hpos hle, hd]
      simp

theorem natRepr_inj (m n : Nat) (h : Nat.repr m = Nat.repr n) : m = n := by
  have hdig : Nat.toDigits 10 m = Nat.toDigits 10 n := by
    have h2 := congrArg String.data h
    simpa [Nat.repr, List.asString] using h2
  rcases Nat.eq_zero_or_pos m with hm | hm <;> rcases Nat.eq_zero_or_pos n with hn | hn
  · rw [hm, hn]
  · -- m = 0, n > 0: toDigits 10 0 = ['0'] forces digits 10 n = [0], so n = 0
    exfalso
    subst hm
    rw [Nat.toDigits, Nat.toDigits,
        toDigitsCore_digits (n + 1) n [] hn (by omega)] at hdig
    have hlen := congrArg List.length hdig
    simp at hlen
    obtain ⟨d, hd⟩ := List.length_eq_one.mp hlen.symm
    rw [hd] at hdig
    simp [Nat.toDigitsCore] at hdig
    have hdlt : d < 10 :=
      Nat.digits_lt_base (by norm_num) (by rw [hd]; exact List.mem_singleton.mpr rfl)
    have hd0 : 0 = d := digitChar_inj_lt 0 (by norm_num) d hdlt hdig
    have := Nat.ofDigits_digits 10 n
    rw [hd, ← hd0] at this
    simp [Nat.ofDigits] at this
    omega
  · -- symmetric case
    exfalso
    subst hn
    rw [Nat.toDigits, Nat.toDigits,
        toDigitsCore_digits (m + 1) m [] hm (by omega)] at hdig
    have hlen := congrArg List.length hdig
    simp at hlen
    obtain ⟨d, hd⟩ := List.length_eq_one.mp hlen
    rw [hd] at hdig
    simp [Nat.toDigitsCore] at hdig
    have hdlt : d < 10 :=
      Nat.digits_lt_base (by norm_num) (by rw [hd]; exact List.mem_singleton.mpr rfl)
    have hd0 : d = 0 := digitChar_inj_lt d hdlt 0 (by norm_num) hdig
    have := Nat.ofDigits_digits 10 m
    rw [hd, hd0] at this
    simp [Nat.ofDigits] at this
    omega
  · rw [Nat.toDigits, Nat.toDigits,
        toDigitsCore_digits (m + 1) m [] hm (by omega),
        toDigitsCore_digits (n + 1) n [] hn (by omega)] at hdig
    simp only [List.append_nil] at hdig
    have hmaps := List.reverse_injective hdig
    have hdigits : Nat.digits 10 m = Nat.digits 10 n :=
      map_digitChar_inj _ _
        (fun d hd => Nat.digits_lt_base (by norm_num) hd)
        (fun d hd => Nat.digits_lt_base (by norm_num) hd) hmaps
    have h1 := Nat.ofDigits_digits 10 m
    have h2 := Nat.ofDigits_digits 10 n
    rw [hdigits] at h1
    exact h1.symm.trans h2

theorem tempDirOf_inj (tmp : String) (m n : Nat) :
    tempDirOf tmp m = tempDirOf tmp n ↔ m = n := by
  constructor
  · intro h
    apply natRepr_inj
    apply String.ext
    have hd := congrArg String.data h
    simp only [tempDirOf, String.data_append] at hd
    exact List.append_cancel_left hd
  · intro h
    rw [h]

/-! ### Evaluating full runs -/

theorem run_success (env : Env) (d : Tree)
    (h1 : env.rmTargetOk = true) (h2 : env.cloneOk = true) (h3 : env.configOk = true)
    (h4 : env.sparseInitOk = true) (h5 : env.sparseSetOk = true) (h6 : env.checkoutOk = true)
    (h7 : env.remoteDocs = some d) (h8 : env.copyOk = true) (h9 : env.cleanupOk = true) :
    (sparseCloneDocs env).outcome = .resolved ∧
    (sparseCloneDocs env).target = some d ∧
    (sparseCloneDocs env).tempExists = false ∧
    (sparseCloneDocs env).trace = stepOrder ∧
    (sparseCloneDocs env).thrown = none := by
  cases h0 : env.targetPrior <;> cases hA : env.enumTempOk <;> cases hB : env.enumTargetOk <;>
    simp [sparseCloneDocs, finishRun, runSteps, stepOrder, initialWorld, execStep,
          h0, h1, h2, h3, h4, h5, h6, h7, h8, h9, hA, hB]

/-! ### Concrete environments used as inputs to the claims -/

/-- The concrete docs subtree used in the examples. -/
def docsTreeEx : Tree := [("guide.md", "# guide"), ("sub/page.md", "# page")]

/-- An invocation in which every external command succeeds and the remote has a
docs folder. -/
def envAllOk : Env :=
  { now := 1736000000000
    targetPrior := none
    rmTargetOk := true
    cloneOk := true
    failedCloneLeavesTemp := false
    configOk := true
    sparseInitOk := true
    sparseSetOk := true
    checkoutOk := true
    enumTempOk := true
    remoteDocs := some docsTreeEx
    copyOk := true
    enumTargetOk := true
    cleanupOk := true }

/-- A run against a remote with no docs folder; everything else succeeds. -/
def envC1docsAbsent : Env :=
  { envAllOk with remoteDocs := none, targetPrior := some [("stale.md", "old")] }

/-- A run in which `git clone` fails and leaves behind the directory it
created. -/
def envC1cloneFails : Env :=
  { envAllOk with cloneOk := false, failedCloneLeavesTemp := true }

/-- Two distinct invocations started within the same millisecond. -/
def envC2a : Env := { envAllOk with now := 123 }

/-- See `envC2a`: same clock value, different prior target contents. -/
def envC2b : Env := { envAllOk with now := 123, targetPrior := some [("old.md", "x")] }

/-- A run against a remote with no docs folder, for the C3 witness. -/
def envC3docsAbsent : Env := { envAllOk with remoteDocs := none }

/-- A run in which the first diagnostic enumeration fails but nothing else. -/
def envC4enumFails : Env := { envAllOk with enumTempOk := false }

/-- A run in which `git checkout` fails. -/
def envC4checkoutFails : Env := { envAllOk with checkoutOk := false }

/-- A run in which the copy step fails. -/
def envC6copyFails : Env := { envAllOk with copyOk := false }

/-- A successful run over a target directory holding unrelated prior content. -/
def envC7prior : Env := { envAllOk with targetPrior := some [("junk.txt", "junk")] }

/-- A second successful run started on the state the first one left. -/
def envC8second : Env := { envAllOk with targetPrior := some docsTreeEx }

/-- A run in which everything succeeds except the `finally` block's `rmSync`. -/
def envC10cleanupFails : Env := { envAllOk with cleanupOk := false }

/-- A run in which `git sparse-checkout set docs` fails. -/
def envC10setFails : Env := { envAllOk with sparseSetOk := false }

/-! ### The claims -/

/-- C1: the claim says the temporary directory is removed on every exit path.
Evaluating the embedded code at two failing inputs shows the opposite: when
the docs folder is missing (or when the clone itself fails and leaves its
directory), the `catch` block calls `process.exit(1)`, which terminates the
process before the `finally` cleanup runs, so the temporary directory still
exists at process exit even though the cleanup flag would have let `rmSync`
succeed. -/
theorem C1_temp_dir_survives_failure :
    (sparseCloneDocs envC1docsAbsent).outcome = .exited 1 ∧
    (sparseCloneDocs envC1docsAbsent).tempExists = true ∧
    envC1docsAbsent.cleanupOk = true ∧
    (sparseCloneDocs envC1cloneFails).outcome = .exited 1 ∧
    (sparseCloneDocs envC1cloneFails).tempExists = true := by decide

/-- C2 counterexample: the temporary path is derived from the millisecond
clock alone.  Two distinct invocations that read the same `Date.now()` value
derive the same path, and the derived path can coincide with a path that
already exists on the file system (no existence check is made). -/
theorem C2_counterexample_collision :
    envC2a ≠ envC2b ∧
    envC2a.now = envC2b.now ∧
    tempDirOf "/tmp" envC2a.now = tempDirOf "/tmp" envC2b.now ∧
    tempDirOf "/tmp" envC2a.now ∈ ["/tmp/intern3-docs-clone-123"] := by decide

/-- C2 amended: step 1 derives the temporary directory path purely from the
invocation's millisecond timestamp, with no file-system existence check; two
invocations derive the same path exactly when they read the same timestamp
(distinct timestamps give distinct paths, but a shared timestamp gives a
collision and a pre-existing directory of that name would be reused). -/
theorem C2_path_determined_by_timestamp (tmp : String) (m n : Nat) :
    tempDirOf tmp m = tempDirOf tmp n ↔ m = n :=
  tempDirOf_inj tmp m n

/-- Witness for C2: the amended theorem evaluated at two concrete distinct
timestamps. -/
theorem C2_path_determined_by_timestamp_witness :
    tempDirOf "/tmp" 41 = tempDirOf "/tmp" 42 ↔ 41 = 42 :=
  C2_path_determined_by_timestamp "/tmp" 41 42

/-- C3: when the checkout completes but the docs folder is absent from the
clone, the run throws the dedicated missing-docs error (a constructor distinct
from the generic command-failure error), the target directory is left
unpopulated, the error is printed, and the process exits with status 1. -/
theorem C3_missing_docs_fails (env : Env)
    (h1 : env.rmTargetOk = true) (h2 : env.cloneOk = true) (h3 : env.configOk = true)
    (h4 : env.sparseInitOk = true) (h5 : env.sparseSetOk = true)
    (h6 : env.checkoutOk = true) (h7 : env.remoteDocs = none) :
    (sparseCloneDocs env).thrown = some (.copy, .missingDocs) ∧
    (∀ s, Err.missingDocs ≠ Err.cmdFailed s) ∧
    (sparseCloneDocs env).target = none ∧
    (sparseCloneDocs env).outcome = .exited 1 ∧
    LogMsg.errorDuring .missingDocs ∈ (sparseCloneDocs env).log ∧
    (mainEntry env).1 = 1 := by
  have key :
      (sparseCloneDocs env).thrown = some (.copy, .missingDocs) ∧
      (sparseCloneDocs env).target = none ∧
      (sparseCloneDocs env).outcome = .exited 1 ∧
      LogMsg.errorDuring .missingDocs ∈ (sparseCloneDocs env).log ∧
      (mainEntry env).1 = 1 := by
    cases h0 : env.targetPrior <;> cases hA : env.enumTempOk <;>
      simp [sparseCloneDocs, mainEntry, finishRun, runSteps, stepOrder, initialWorld,
            execStep, h0, h1, h2, h3, h4, h5, h6, h7, hA]
  exact ⟨key.1, fun s => by simp, key.2.1, key.2.2.1, key.2.2.2.1, key.2.2.2.2⟩

/-- Witness for C3: the theorem applied to a concrete run whose remote lacks
a docs folder. -/
theorem C3_missing_docs_fails_witness :
    (sparseCloneDocs envC3docsAbsent).thrown = some (.copy, .missingDocs) ∧
    (sparseCloneDocs envC3docsAbsent).target = none ∧
    (mainEntry envC3docsAbsent).1 = 1 :=
  ⟨(C3_missing_docs_fails envC3docsAbsent rfl rfl rfl rfl rfl rfl rfl).1,
   (C3_missing_docs_fails envC3docsAbsent rfl rfl rfl rfl rfl rfl rfl).2.2.1,
   (C3_missing_docs_fails envC3docsAbsent rfl rfl rfl rfl rfl rfl rfl).2.2.2.2.2⟩

/-- C4 counterexample: the claim says that whenever a step fails no subsequent
step executes.  In a run where the first diagnostic enumeration step fails
(and nothing else does), the failed step is recorded, yet the copy step and
every later step still execute: the trace is the full step list and the run
still resolves. -/
theorem C4_counterexample_diag_failure :
    Step.enumTemp ∈ (sparseCloneDocs envC4enumFails).failures ∧
    Step.copy ∈ (sparseCloneDocs envC4enumFails).trace ∧
    (sparseCloneDocs envC4enumFails).trace = stepOrder ∧
    (sparseCloneDocs envC4enumFails).outcome = .resolved := by decide

/-- C4 amended: the steps execute in the fixed source order — the executed
steps always form a prefix of that order — and when a step's failure escapes
the step (any non-diagnostic step), the run stops there: the failing step is
the last step executed.  A failure inside one of the two diagnostic
enumeration steps is swallowed and does not stop later steps. -/
theorem C4_fixed_order (env : Env) :
    (sparseCloneDocs env).trace <+: stepOrder ∧
    (∀ s e, (sparseCloneDocs env).thrown = some (s, e) →
      (sparseCloneDocs env).trace.getLast? = some s) := by
  constructor
  · rw [sparseCloneDocs, finishRun_trace]
    exact runSteps_trace_isPrefix env stepOrder _
  · intro s e h
    rw [sparseCloneDocs, finishRun_thrown] at h
    rw [sparseCloneDocs, finishRun_trace]
    exact runSteps_halt_getLast env stepOrder _ s e h

/-- Witness for C4: in a concrete run where `git checkout` fails, the trace is
a prefix of the step order ending at the checkout step. -/
theorem C4_fixed_order_witness :
    (sparseCloneDocs envC4checkoutFails).trace <+: stepOrder ∧
    (sparseCloneDocs envC4checkoutFails).trace.getLast? = some Step.checkout :=
  ⟨(C4_fixed_order envC4checkoutFails).1,
   (C4_fixed_order envC4checkoutFails).2 .checkout (.cmdFailed .checkout) (by decide)⟩

/-- C5: the run's outcome, final target contents, final temp-directory state
and executed steps are unchanged when the two diagnostic enumeration flags are
replaced by any other values: a failing enumeration is swallowed inside its
own catch (which only logs) and never escalates to a run failure. -/
theorem C5_enum_failure_harmless (env : Env) (b b2 : Bool) :
    (sparseCloneDocs env).outcome
        = (sparseCloneDocs { env with enumTempOk := b, enumTargetOk := b2 }).outcome ∧
    (sparseCloneDocs env).target
        = (sparseCloneDocs { env with enumTempOk := b, enumTargetOk := b2 }).target ∧
    (sparseCloneDocs env).tempExists
        = (sparseCloneDocs { env with enumTempOk := b, enumTargetOk := b2 }).tempExists ∧
    (sparseCloneDocs env).trace
        = (sparseCloneDocs { env with enumTempOk := b, enumTargetOk := b2 }).trace := by
  have h := runSteps_agrees env b b2 stepOrder (initialWorld env)
      (initialWorld { env with enumTempOk := b, enumTargetOk := b2 }) rfl
  exact finishRun_congr env { env with enumTempOk := b, enumTargetOk := b2 }
      _ _ rfl h.1 h.2.2 h.2.1

/-- Witness for C5: the theorem evaluated at the all-success environment with
both enumerations forced to fail. -/
theorem C5_enum_failure_harmless_witness :
    (sparseCloneDocs envAllOk).outcome
        = (sparseCloneDocs { envAllOk with enumTempOk := false, enumTargetOk := false }).outcome ∧
    (sparseCloneDocs envAllOk).target
        = (sparseCloneDocs { envAllOk with enumTempOk := false, enumTargetOk := false }).target ∧
    (sparseCloneDocs envAllOk).tempExists
        = (sparseCloneDocs { envAllOk with enumTempOk := false, enumTargetOk := false }).tempExists ∧
    (sparseCloneDocs envAllOk).trace
        = (sparseCloneDocs { envAllOk with enumTempOk := false, enumTargetOk := false }).trace :=
  C5_enum_failure_harmless envAllOk false false

/-- C6: the runner exits with status 0 exactly when the run's promise
resolves, and whenever the exit status is non-zero one of the two
human-readable failure diagnostics has been printed. -/
theorem C6_exit_status (env : Env) :
    ((mainEntry env).1 = 0 ↔ (sparseCloneDocs env).outcome = .resolved) ∧
    ((mainEntry env).1 ≠ 0 → (mainEntry env).2.any isDiagMsg = true) := by
  have h := finishRun_diag env (runSteps env stepOrder (initialWorld env))
  have hsc : sparseCloneDocs env
      = finishRun env (runSteps env stepOrder (initialWorld env)) := rfl
  rw [← hsc] at h
  rcases h with h | ⟨h, hd⟩ | h
  · constructor
    · simp [mainEntry, h]
    · intro hne
      exact absurd (by simp [mainEntry, h]) hne
  · constructor
    · simp [mainEntry, h]
    · intro _
      simp [mainEntry, h, hd]
  · constructor
    · simp [mainEntry, h]
    · intro _
      simp [mainEntry, h, isDiagMsg]

/-- Witness for C6: a concrete failing run (copy fails) exits 1 after printing
a diagnostic, via the theorem. -/
theorem C6_exit_status_witness :
    ((mainEntry envC6copyFails).1 = 0 ↔ (sparseCloneDocs envC6copyFails).outcome = .resolved) ∧
    (mainEntry envC6copyFails).2.any isDiagMsg = true :=
  ⟨(C6_exit_status envC6copyFails).1,
   (C6_exit_status envC6copyFails).2 (by decide)⟩

/-- C7: when the target directory exists beforehand with arbitrary prior
content, a successful run deletes it (the clear-target step precedes the clone
step in the executed order) and ends with the target holding exactly the
freshly cloned docs tree, nothing else. -/
theorem C7_prior_content_destroyed (env : Env) (d prior : Tree)
    (h0 : env.targetPrior = some prior)
    (h1 : env.rmTargetOk = true) (h2 : env.cloneOk = true) (h3 : env.configOk = true)
    (h4 : env.sparseInitOk = true) (h5 : env.sparseSetOk = true) (h6 : env.checkoutOk = true)
    (h7 : env.remoteDocs = some d) (h8 : env.copyOk = true) (h9 : env.cleanupOk = true) :
    (sparseCloneDocs env).outcome = .resolved ∧
    (sparseCloneDocs env).target = some d ∧
    (sparseCloneDocs env).trace = stepOrder ∧
    stepOrder.indexOf Step.clearTarget < stepOrder.indexOf Step.clone := by
  have h := run_success env d h1 h2 h3 h4 h5 h6 h7 h8 h9
  exact ⟨h.1, h.2.1, h.2.2.2.1, by decide⟩

/-- Witness for C7: the theorem applied to a concrete run whose target held
unrelated junk beforehand. -/
theorem C7_prior_content_destroyed_witness :
    (sparseCloneDocs envC7prior).outcome = .resolved ∧
    (sparseCloneDocs envC7prior).target = some docsTreeEx :=
  ⟨(C7_prior_content_destroyed envC7prior docsTreeEx [("junk.txt", "junk")]
      rfl rfl rfl rfl rfl rfl rfl rfl rfl rfl).1,
   (C7_prior_content_destroyed envC7prior docsTreeEx [("junk.txt", "junk")]
      rfl rfl rfl rfl rfl rfl rfl rfl rfl rfl).2.1⟩

/-- C8: two successful runs in succession against an unchanged remote (the
second starting from the target state the first left) produce byte-identical
target contents — both equal to the remote docs tree — and neither run leaves
the temporary directory behind. -/
theorem C8_idempotent (env1 env2 : Env) (d : Tree)
    (hseq : env2.targetPrior = (sparseCloneDocs env1).target)
    (a1 : env1.rmTargetOk = true) (a2 : env1.cloneOk = true) (a3 : env1.configOk = true)
    (a4 : env1.sparseInitOk = true) (a5 : env1.sparseSetOk = true) (a6 : env1.checkoutOk = true)
    (a7 : env1.remoteDocs = some d) (a8 : env1.copyOk = true) (a9 : env1.cleanupOk = true)
    (b1 : env2.rmTargetOk = true) (b2 : env2.cloneOk = true) (b3 : env2.configOk = true)
    (b4 : env2.sparseInitOk = true) (b5 : env2.sparseSetOk = true) (b6 : env2.checkoutOk = true)
    (b7 : env2.remoteDocs = some d) (b8 : env2.copyOk = true) (b9 : env2.cleanupOk = true) :
    (sparseCloneDocs env1).target = some d ∧
    (sparseCloneDocs env2).target = some d ∧
    (sparseCloneDocs env1).target = (sparseCloneDocs env2).target ∧
    (sparseCloneDocs env1).tempExists = false ∧
    (sparseCloneDocs env2).tempExists = false := by
  have r1 := run_success env1 d a1 a2 a3 a4 a5 a6 a7 a8 a9
  have r2 := run_success env2 d b1 b2 b3 b4 b5 b6 b7 b8 b9
  exact ⟨r1.2.1, r2.2.1, r1.2.1.trans r2.2.1.symm, r1.2.2.1, r2.2.2.1⟩

/-- Witness for C8: the theorem applied to two concrete consecutive runs. -/
theorem C8_idempotent_witness :
    (sparseCloneDocs envAllOk).target = some docsTreeEx ∧
    (sparseCloneDocs envC8second).target = some docsTreeEx ∧
    (sparseCloneDocs envAllOk).target = (sparseCloneDocs envC8second).target ∧
    (sparseCloneDocs envAllOk).tempExists = false ∧
    (sparseCloneDocs envC8second).tempExists = false :=
  C8_idempotent envAllOk envC8second docsTreeEx (by decide)
    rfl rfl rfl rfl rfl rfl rfl rfl rfl
    rfl rfl rfl rfl rfl rfl rfl rfl rfl

/-- C9: the navigation configuration is a statically declared constant whose
title combines the Logo icon with the text label and whose links slot is
exactly the empty sequence of link descriptors. -/
theorem C9_nav_config :
    baseOptions.links = ([] : List LinkItem) ∧
    baseOptions.nav.title = NavTitle.iconText "w-6 h-6" "intern3.chat" :=
  ⟨rfl, rfl⟩

/-- C10 counterexample: the claim says the promise returned by
`sparseCloneDocs` never rejects and the runner's `.catch` handler is
unreachable.  In a run where every step succeeds but the `finally` block's
`rmSync` throws, the promise rejects with the cleanup error and the `.catch`
handler runs (it prints the script-failed diagnostic and exits 1). -/
theorem C10_counterexample_cleanup_rejects :
    (sparseCloneDocs envC10cleanupFails).outcome = .rejected .cleanupFailed ∧
    (mainEntry envC10cleanupFails).1 = 1 ∧
    LogMsg.scriptFailed .cleanupFailed ∈ (mainEntry envC10cleanupFails).2 := by decide

/-- C10 amended: an error thrown by any step inside the `try` block is caught
and terminates the process via `process.exit(1)` before the promise settles,
so no step failure is ever observable as a rejection; but an error thrown by
the `finally` block's cleanup is not caught, so the promise can reject — and
every rejection is that cleanup error, arising only in runs whose `try` block
completed. -/
theorem C10_rejection_only_from_cleanup (env : Env) :
    (∀ s e, (sparseCloneDocs env).thrown = some (s, e) →
      (sparseCloneDocs env).outcome = .exited 1) ∧
    (∀ e, (sparseCloneDocs env).outcome = .rejected e →
      e = .cleanupFailed ∧ (sparseCloneDocs env).thrown = none) := by
  constructor
  · intro s e h
    rw [sparseCloneDocs, finishRun_thrown] at h
    exact finishRun_exited_of_thrown env _ s e h
  · intro e h
    have h2 := finishRun_rejected env (runSteps env stepOrder (initialWorld env)) e h
    refine ⟨h2.1, ?_⟩
    rw [sparseCloneDocs, finishRun_thrown]
    exact h2.2

/-- Witness for C10: both halves of the amended theorem at concrete runs — a
failing sparse-checkout step yields `process.exit(1)` with the promise never
settling, and a failing cleanup yields a settled (rejected) promise with no
step error. -/
theorem C10_rejection_only_from_cleanup_witness :
    (sparseCloneDocs envC10setFails).outcome = .exited 1 ∧
    (sparseCloneDocs envC10cleanupFails).thrown = none :=
  ⟨(C10_rejection_only_from_cleanup envC10setFails).1 .sparseSet
      (.cmdFailed .sparseSet) (by decide),
   ((C10_rejection_only_from_cleanup envC10cleanupFails).2 .cleanupFailed (by decide)).2⟩

end Intern3Docs
